import Mathlib

/-!
Verification of the SaveInterestingFiles module
(`src/SaveInterestingFilesModule.cpp`).

The module reads "interesting file hit" artifacts from a blackboard,
resolves each to a file record, and for every `TSK_SET_NAME` attribute of
the artifact saves the corresponding file — or, for a directory, its whole
subtree — under a user-configured output folder.

Shallow embedding conventions:
* External collaborators (image DB, blackboard, file manager, filesystem)
  are packaged in an `Env` record of pure functions; the two fallible
  filesystem operations are modelled by boolean success oracles.
* Observable side effects are collected as a list of `FsAction`s
  (directories created, file contents copied).
* A thrown `TskException` is modelled as a non-empty `List TskError`;
  within one hit the first error aborts the rest of that hit's work,
  exactly as the C++ exception does.
* The recursive directory walk `saveDirectoryContents` takes a fuel
  argument bounding the recursion depth; `none` means the fuel was
  exhausted (the C++ function has no such bound and would simply keep
  recursing).
-/

/-- File metadata type from the TSK framework; the module only tests
whether a record's `metaType` equals `TSK_FS_META_TYPE_DIR`. -/
inductive TskMetaType where
  | TSK_FS_META_TYPE_REG
  | TSK_FS_META_TYPE_DIR
  | TSK_FS_META_TYPE_OTHER
deriving DecidableEq, Repr

/-- A file record from the image database (`TskFileRecord`): the fields the
module reads. -/
structure TskFileRecord where
  fileId : Nat
  name : String
  metaType : TskMetaType
deriving DecidableEq, Repr

/-- A blackboard attribute: the module reads its type id and its string
value (`getAttributeTypeID`, `getValueString`). -/
structure TskBlackboardAttribute where
  attributeTypeID : Nat
  valueString : String
deriving DecidableEq, Repr

/-- A blackboard artifact: the module reads its object id (`getObjectID`)
and its attribute list (`getAttributes`). -/
structure TskBlackboardArtifact where
  objectID : Nat
  attributes : List TskBlackboardAttribute
deriving DecidableEq, Repr

/-- The `TSK_SET_NAME` attribute-type constant of the framework. Its exact
numeric value is immaterial to the module, which only compares attribute
type ids against it. -/
def TSK_SET_NAME : Nat := 35

/-- Module return status (`TskModule::Status`): `OK`, `FAIL`, or the
pipeline-stopping `STOP` (never produced by this module). -/
inductive Status where
  | OK
  | FAIL
  | STOP
deriving DecidableEq, Repr

/-- An observable filesystem side effect of the module. -/
inductive FsAction where
  | mkdir (path : String)
  | copy (fileId : Nat) (path : String)
deriving DecidableEq, Repr

/-- A `TskException` raised on one of the module's error paths. -/
inductive TskError where
  | createDirFailed (path : String)
  | copyFailed (fileId : Nat) (path : String)
  | lookupFailed (fileId : Nat)
deriving DecidableEq, Repr

/-- The external world of the module: the configured output folder, the
path separator (`Poco::Path::separator()`), the image database and
blackboard, and success oracles for the two fallible filesystem
operations. -/
structure Env where
  sep : String
  outputFolderPath : String
  getFileRecords : Nat → List TskFileRecord
  getFileRecord : Nat → Option TskFileRecord
  artifacts : List TskBlackboardArtifact
  mkdirOk : String → Bool
  copyOk : Nat → String → Bool

/-- Helper `createDirectory`: `Poco::File(path).createDirectories()`, with
a `TskException` thrown on failure. -/
def createDirectory (env : Env) (path : String) : List FsAction × List TskError :=
  if env.mkdirOk path then ([FsAction.mkdir path], [])
  else ([], [TskError.createDirFailed path])

/-- Call `TskServices::Instance().getFileManager().copyFile(fileId, path)`:
streams the file's content to `path`, throwing on failure. -/
def copyFile (env : Env) (fileId : Nat) (path : String) : List FsAction × List TskError :=
  if env.copyOk fileId path then ([FsAction.copy fileId path], [])
  else ([], [TskError.copyFailed fileId path])

mutual

/-- Function `saveDirectoryContents(dirPath, dirFileId)`: query the store for the
records whose `par_file_id` is `dirFileId` and save each child. One unit
of fuel pays for this call frame; the C++ original has no such bound. -/
def saveDirectoryContents (env : Env) (fuel : Nat) (dirPath : String) (dirFileId : Nat) : Option (List FsAction × List TskError) :=
  match fuel with
  | 0 => none
  | fuel' + 1 => saveChildren env fuel' dirPath (env.getFileRecords dirFileId)
termination_by (fuel, 0)

/-- The loop body of `saveDirectoryContents` after the child query: walk
the child records in store order. A directory child gets a subdirectory
`dirPath ++ sep ++ name` created and is recursed into; any other child is
copied to `dirPath ++ sep ++ name`. The first error aborts the remaining
children, as the C++ exception does. -/
def saveChildren (env : Env) (fuel : Nat) (dirPath : String) : List TskFileRecord → Option (List FsAction × List TskError)
  | [] => some ([], [])
  | file :: rest =>
    if file.metaType = TskMetaType.TSK_FS_META_TYPE_DIR then
      match createDirectory env (dirPath ++ env.sep ++ file.name) with
      | (acts, e :: es) => some (acts, e :: es)
      | (acts, []) =>
        match saveDirectoryContents env fuel (dirPath ++ env.sep ++ file.name) file.fileId with
        | none => none
        | some (acts2, e :: es) => some (acts ++ acts2, e :: es)
        | some (acts2, []) =>
          match saveChildren env fuel dirPath rest with
          | none => none
          | some (acts3, errs) => some (acts ++ acts2 ++ acts3, errs)
    else
      match copyFile env file.fileId (dirPath ++ env.sep ++ file.name) with
      | (acts, e :: es) => some (acts, e :: es)
      | (acts, []) =>
        match saveChildren env fuel dirPath rest with
        | none => none
        | some (acts3, errs) => some (acts ++ acts3, errs)
termination_by l => (fuel, l.length + 1)

end

/-- Function `saveInterestingDirectory(dir, setName)`: create
`<out>/<setName>/<fileId>_<name>/<name>` and recursively save the
directory's contents into it. -/
def saveInterestingDirectory (env : Env) (fuel : Nat) (dir : TskFileRecord) (setName : String) : Option (List FsAction × List TskError) :=
  match createDirectory env (env.outputFolderPath ++ env.sep ++ setName ++ env.sep ++ toString dir.fileId ++ "_" ++ dir.name ++ env.sep ++ dir.name) with
  | (acts, e :: es) => some (acts, e :: es)
  | (acts, []) =>
    match saveDirectoryContents env fuel (env.outputFolderPath ++ env.sep ++ setName ++ env.sep ++ toString dir.fileId ++ "_" ++ dir.name ++ env.sep ++ dir.name) dir.fileId with
    | none => none
    | some (acts2, errs) => some (acts ++ acts2, errs)

/-- Function `saveInterestingFile(file, setName)`: copy the file's content to
`<out>/<setName>/<fileId>_<name>`. -/
def saveInterestingFile (env : Env) (file : TskFileRecord) (setName : String) : List FsAction × List TskError :=
  copyFile env file.fileId (env.outputFolderPath ++ env.sep ++ setName ++ env.sep ++ toString file.fileId ++ "_" ++ file.name)

/-- The metaType dispatch inside the attribute loop of `report()`:
directory records go to `saveInterestingDirectory`, all others to
`saveInterestingFile`. -/
def dispatchSave (env : Env) (fuel : Nat) (file : TskFileRecord) (setName : String) : Option (List FsAction × List TskError) :=
  if file.metaType = TskMetaType.TSK_FS_META_TYPE_DIR then
    saveInterestingDirectory env fuel file setName
  else
    some (saveInterestingFile env file setName)

/-- The attribute loop of `report()` for one artifact: for every attribute
whose type id is `TSK_SET_NAME`, save the file or directory; the first
error aborts the remaining attributes of this artifact (the exception is
caught one level up, per artifact). -/
def processAttributes (env : Env) (fuel : Nat) (file : TskFileRecord) : List TskBlackboardAttribute → Option (List FsAction × List TskError)
  | [] => some ([], [])
  | attr :: rest =>
    if attr.attributeTypeID = TSK_SET_NAME then
      match dispatchSave env fuel file attr.valueString with
      | none => none
      | some (acts, e :: es) => some (acts, e :: es)
      | some (acts, []) =>
        match processAttributes env fuel file rest with
        | none => none
        | some (acts2, errs) => some (acts ++ acts2, errs)
    else
      processAttributes env fuel file rest

/-- The per-artifact `try` body of `report()`: resolve the artifact's
object id to a file record (`getFileRecord` returning `-1` is modelled as
`none` and raises the lookup error), then run the attribute loop. -/
def processArtifact (env : Env) (fuel : Nat) (artifact : TskBlackboardArtifact) : Option (List FsAction × List TskError) :=
  match env.getFileRecord artifact.objectID with
  | none => some ([], [TskError.lookupFailed artifact.objectID])
  | some file => processAttributes env fuel file artifact.attributes

/-- The artifact loop of `report()`: each artifact's errors are caught and
logged, and processing continues with the next artifact; all errors are
accumulated. -/
def processArtifacts (env : Env) (fuel : Nat) : List TskBlackboardArtifact → Option (List FsAction × List TskError)
  | [] => some ([], [])
  | a :: rest =>
    match processArtifact env fuel a with
    | none => none
    | some (acts, errs) =>
      match processArtifacts env fuel rest with
      | none => none
      | some (acts2, errs2) => some (acts ++ acts2, errs ++ errs2)

/-- Function `report()`: create the output directory, then process every
`TSK_INTERESTING_FILE_HIT` artifact; returns `OK` when no error occurred
and `FAIL` otherwise, together with the performed actions and the
accumulated errors. -/
def report (env : Env) (fuel : Nat) : Option (List FsAction × List TskError × Status) :=
  match createDirectory env env.outputFolderPath with
  | (acts, e :: es) => some (acts, e :: es, Status.FAIL)
  | (acts0, []) =>
    match processArtifacts env fuel env.artifacts with
    | none => none
    | some (acts, errs) => some (acts0 ++ acts, errs, if errs.isEmpty then Status.OK else Status.FAIL)

/-- The module's initialization entry point (named `initialize` in the
C++ source): clear the cached output folder path, cache the argument when
it is non-NULL (`none` models a NULL pointer), and always return `OK`.
The result is the new cached path paired with the status. -/
def moduleInit (arguments : Option String) : String × Status :=
  match arguments with
  | none => ("", Status.OK)
  | some s => (s, Status.OK)

/-- Function `finalize()`: always `OK`. -/
def finalize : Status := Status.OK

/-!
Spec-side definitions: the naming formulas of spec §6, transcribed from the
spec's words, to be compared with the paths the source code builds.
-/

/-- Spec §6 path formula for plain files:
`<root>/<setName>/<fileId>_<fileName>`. -/
def specFilePath (root sep setName : String) (fileId : Nat) (name : String) : String :=
  root ++ sep ++ setName ++ sep ++ toString fileId ++ "_" ++ name

/-- Spec §4.2 top-level container path for a directory hit:
`<outputRoot>/<setName>/<fileId>_<name>`. -/
def specContainerPath (root sep setName : String) (fileId : Nat) (name : String) : String :=
  root ++ sep ++ setName ++ sep ++ toString fileId ++ "_" ++ name

/-- Spec §4.2 materialized subtree root for a directory hit: the container
path with one further nested directory named `<name>` (not prefixed)
inside it: `<outputRoot>/<setName>/<fileId>_<name>/<name>`. -/
def specSubtreeRoot (root sep setName : String) (fileId : Nat) (name : String) : String :=
  specContainerPath root sep setName fileId name ++ sep ++ name

/-- Spec §4.2 destination for a child during the recursive walk:
`<destPath>/<child.name>`, with no file-id prefix at this nesting level. -/
def specChildPath (destPath sep childName : String) : String :=
  destPath ++ sep ++ childName

/-- Spec §4.1/§7 abort-on-first-error sequencing: run the continuation only
when the completed step produced no error; otherwise the step's error is
the result. -/
def seqStep (r : List FsAction × List TskError) (k : Unit → Option (List FsAction × List TskError)) : Option (List FsAction × List TskError) :=
  match r with
  | (acts, e :: es) => some (acts, e :: es)
  | (acts, []) =>
    match k () with
    | none => none
    | some (acts2, errs) => some (acts ++ acts2, errs)

/-- Combinator `seqStep` lifted to a first step that may itself have run out of
fuel. -/
def seqWalk (r : Option (List FsAction × List TskError)) (k : Unit → Option (List FsAction × List TskError)) : Option (List FsAction × List TskError) :=
  match r with
  | none => none
  | some r' => seqStep r' k

/-!
Concrete test fixtures: a small image with a directory subtree and some
plain files, used to exercise the definitions on closed inputs.
-/

/-- A directory record: the subject of a directory hit. -/
def recTop : TskFileRecord :=
  { fileId := 1, name := "top", metaType := TskMetaType.TSK_FS_META_TYPE_DIR }

/-- A subdirectory of `recTop`. -/
def recSub : TskFileRecord :=
  { fileId := 2, name := "sub", metaType := TskMetaType.TSK_FS_META_TYPE_DIR }

/-- A plain file inside `recTop`. -/
def recF1 : TskFileRecord :=
  { fileId := 3, name := "a.txt", metaType := TskMetaType.TSK_FS_META_TYPE_REG }

/-- A plain file inside `recSub`. -/
def recF2 : TskFileRecord :=
  { fileId := 4, name := "b.txt", metaType := TskMetaType.TSK_FS_META_TYPE_REG }

/-- A plain file that is the subject of a file hit. -/
def recF5 : TskFileRecord :=
  { fileId := 5, name := "c.txt", metaType := TskMetaType.TSK_FS_META_TYPE_REG }

/-- A set-name attribute naming the rule set `setA`. -/
def attrSetA : TskBlackboardAttribute :=
  { attributeTypeID := TSK_SET_NAME, valueString := "setA" }

/-- A hit artifact on the directory `recTop` with one set-name attribute. -/
def artTop : TskBlackboardArtifact :=
  { objectID := 1, attributes := [attrSetA] }

/-- A hit artifact on the plain file `recF5` with one set-name attribute. -/
def artF5 : TskBlackboardArtifact :=
  { objectID := 5, attributes := [attrSetA] }

/-- A hit artifact whose object id resolves to no record. -/
def artGhost : TskBlackboardArtifact :=
  { objectID := 99, attributes := [attrSetA] }

/-- A hit artifact that resolves to `recF5` but carries no set-name
attribute. -/
def artNoSet : TskBlackboardArtifact :=
  { objectID := 5, attributes := [{ attributeTypeID := 7, valueString := "other" }] }

/-- The child-record index of the test image. -/
def childrenW : Nat → List TskFileRecord :=
  fun pid => if pid = 1 then [recSub, recF1] else if pid = 2 then [recF2] else []

/-- The record-lookup index of the test image. -/
def lookupW : Nat → Option TskFileRecord :=
  fun fid =>
    if fid = 1 then some recTop
    else if fid = 5 then some recF5
    else none

/-- A fully healthy world: every directory creation and every copy
succeeds. -/
def envW : Env :=
  { sep := "/", outputFolderPath := "out",
    getFileRecords := childrenW, getFileRecord := lookupW,
    artifacts := [artTop, artF5],
    mkdirOk := fun _ => true, copyOk := fun _ _ => true }

/-- A world whose output root cannot be created. -/
def envNoRoot : Env :=
  { sep := "/", outputFolderPath := "out",
    getFileRecords := childrenW, getFileRecord := lookupW,
    artifacts := [artTop, artF5],
    mkdirOk := fun _ => false, copyOk := fun _ _ => true }

/-- A world in which copying file 4 (deep inside the subtree) fails. -/
def envBadCopy4 : Env :=
  { sep := "/", outputFolderPath := "out",
    getFileRecords := childrenW, getFileRecord := lookupW,
    artifacts := [artTop, artF5],
    mkdirOk := fun _ => true, copyOk := fun fid _ => fid != 4 }

/-- A healthy world whose batch contains an unresolvable hit between two
good ones. -/
def envGhost : Env :=
  { sep := "/", outputFolderPath := "out",
    getFileRecords := childrenW, getFileRecord := lookupW,
    artifacts := [artF5, artGhost, artTop],
    mkdirOk := fun _ => true, copyOk := fun _ _ => true }

/-- A measure witnessing that the test image's parent/child graph is
acyclic: it strictly decreases from each directory to its children. -/
def depthW : Nat → Nat :=
  fun id => if id = 1 then 2 else if id = 2 then 1 else 0

/-!
Helper lemmas (shared; not tied to any single claim).
-/

/-- Rendering of the file id `1` in output paths. -/
theorem toString_one : toString (1 : Nat) = "1" := rfl

/-- Rendering of the file id `5` in output paths. -/
theorem toString_five : toString (5 : Nat) = "5" := rfl

/-- An artifact none of whose attributes has type `TSK_SET_NAME` makes the
attribute loop a no-op: no action, no error. -/
theorem processAttributes_no_setName (env : Env) (fuel : Nat) (file : TskFileRecord) :
    ∀ attrs : List TskBlackboardAttribute, (∀ a ∈ attrs, a.attributeTypeID ≠ TSK_SET_NAME) →
      processAttributes env fuel file attrs = some ([], []) := by
  intro attrs
  induction attrs with
  | nil => intro _; rfl
  | cons a rest ih =>
    intro h
    have ha : a.attributeTypeID ≠ TSK_SET_NAME := h a (List.mem_cons_self a rest)
    have hr : ∀ b ∈ rest, b.attributeTypeID ≠ TSK_SET_NAME :=
      fun b hb => h b (List.mem_cons_of_mem a hb)
    simp [processAttributes, ha, ih hr]

/-- Whenever `report` completes, its status is `OK` exactly when the
accumulated error list is empty. -/
theorem report_status_shape (env : Env) (fuel : Nat) (acts : List FsAction) (errs : List TskError) (st : Status)
    (h : report env fuel = some (acts, errs, st)) :
    st = if errs.isEmpty then Status.OK else Status.FAIL := by
  unfold report createDirectory at h
  by_cases hmk : env.mkdirOk env.outputFolderPath
  · simp only [hmk, if_true] at h
    cases hpa : processArtifacts env fuel env.artifacts with
    | none => rw [hpa] at h; simp at h
    | some r =>
      obtain ⟨acts1, errs1⟩ := r
      rw [hpa] at h
      simp only [Option.some.injEq, Prod.mk.injEq] at h
      obtain ⟨-, he, hs⟩ := h
      rw [he] at hs
      exact hs.symm
  · have hmk' : env.mkdirOk env.outputFolderPath = false := by
      cases hb : env.mkdirOk env.outputFolderPath
      · rfl
      · exact absurd hb hmk
    simp only [hmk', Bool.false_eq_true, if_false] at h
    simp only [Option.some.injEq, Prod.mk.injEq] at h
    obtain ⟨-, he, hs⟩ := h
    rw [← hs, ← he]
    simp

/-- The artifact loop splits over list append: actions and errors of the
two halves concatenate. -/
theorem processArtifacts_append (env : Env) (fuel : Nat) :
    ∀ l1 l2 : List TskBlackboardArtifact, ∀ r1 r2 : List FsAction × List TskError,
      processArtifacts env fuel l1 = some r1 → processArtifacts env fuel l2 = some r2 →
      processArtifacts env fuel (l1 ++ l2) = some (r1.1 ++ r2.1, r1.2 ++ r2.2) := by
  intro l1
  induction l1 with
  | nil =>
    intro l2 r1 r2 h1 h2
    simp only [processArtifacts, Option.some.injEq] at h1
    rw [← h1]
    simpa using h2
  | cons a rest ih =>
    intro l2 r1 r2 h1 h2
    simp only [processArtifacts] at h1
    cases hpa : processArtifact env fuel a with
    | none => rw [hpa] at h1; simp at h1
    | some ra =>
      obtain ⟨a1, e1⟩ := ra
      rw [hpa] at h1
      cases hrest : processArtifacts env fuel rest with
      | none => rw [hrest] at h1; simp at h1
      | some rr =>
        obtain ⟨a2, e2⟩ := rr
        rw [hrest] at h1
        simp only [Option.some.injEq] at h1
        have hall := ih l2 (a2, e2) r2 hrest h2
        simp only [List.cons_append, processArtifacts, hpa, List.append_eq, hall, ← h1,
          Option.some.injEq, Prod.mk.injEq, List.append_assoc, and_self]

/-!
Claim theorems.
-/

/-- C4: for every plain-file hit record and set name, `saveInterestingFile`
invokes the content copier with destination path exactly
`<outputRoot>/<setName>/<fileId>_<name>` (spec formula `specFilePath`),
built with the host separator. -/
theorem saveInterestingFile_path_bitExact (env : Env) (file : TskFileRecord) (setName : String) :
    saveInterestingFile env file setName =
      copyFile env file.fileId (specFilePath env.outputFolderPath env.sep setName file.fileId file.name) :=
  rfl

/-- C2: for every directory hit record and set name, when the nested
directory can be created, `saveInterestingDirectory` creates exactly the
materialized subtree root `<outputRoot>/<setName>/<fileId>_<name>/<name>`
(the container path of the spec with the unprefixed `<name>` nested inside
it) and then recurses into the directory's contents from that inner path
with the record's file id. -/
theorem saveInterestingDirectory_nested_root_and_recursion (env : Env) (fuel : Nat) (dir : TskFileRecord) (setName : String)
    (h : env.mkdirOk (specSubtreeRoot env.outputFolderPath env.sep setName dir.fileId dir.name) = true) :
    saveInterestingDirectory env fuel dir setName =
      (saveDirectoryContents env fuel (specSubtreeRoot env.outputFolderPath env.sep setName dir.fileId dir.name) dir.fileId).map
        (fun r => (FsAction.mkdir (specSubtreeRoot env.outputFolderPath env.sep setName dir.fileId dir.name) :: r.1, r.2)) := by
  have hpath : env.outputFolderPath ++ env.sep ++ setName ++ env.sep ++ toString dir.fileId ++ "_" ++ dir.name ++ env.sep ++ dir.name
      = specSubtreeRoot env.outputFolderPath env.sep setName dir.fileId dir.name := rfl
  unfold saveInterestingDirectory createDirectory
  rw [hpath, h]
  cases hsdc : saveDirectoryContents env fuel (specSubtreeRoot env.outputFolderPath env.sep setName dir.fileId dir.name) dir.fileId with
  | none => simp
  | some r =>
    obtain ⟨acts2, errs⟩ := r
    simp

/-- C9: the initialization entry point returns `OK` for every argument,
including NULL (`none`) and the empty string; a bad output path fails only
later, when `report()` tries to create the output directory, where it
yields the `FAIL` status. -/
theorem moduleInit_always_ok_failure_deferred :
    (∀ args : Option String, (moduleInit args).2 = Status.OK) ∧
    (∀ env : Env, ∀ fuel : Nat, env.mkdirOk env.outputFolderPath = false →
      report env fuel = some ([], [TskError.createDirFailed env.outputFolderPath], Status.FAIL)) := by
  constructor
  · intro args; cases args <;> rfl
  · intro env fuel h
    simp [report, createDirectory, h]

/-- C1: whenever `report()` completes, its status is `OK` exactly when no
error occurred, `FAIL` exactly when at least one error occurred, and never
anything else — every error path resolves to the OK/FAIL status code. -/
theorem report_ok_iff_no_error (env : Env) (fuel : Nat) (acts : List FsAction) (errs : List TskError) (st : Status)
    (h : report env fuel = some (acts, errs, st)) :
    (st = Status.OK ↔ errs = []) ∧ (st = Status.FAIL ↔ errs ≠ []) ∧ st ≠ Status.STOP := by
  have hshape := report_status_shape env fuel acts errs st h
  subst hshape
  cases errs with
  | nil => simp
  | cons e es => simp

/-- C10: a hit that resolves to a file record but carries no set-name
attribute produces no action and no error, and inserting it anywhere in
the batch leaves the artifact loop's outcome — and hence the aggregate
status — unchanged: it is silently skipped. -/
theorem hit_without_setName_skipped (env : Env) (fuel : Nat) (art : TskBlackboardArtifact) (file : TskFileRecord)
    (h1 : env.getFileRecord art.objectID = some file)
    (h2 : ∀ a ∈ art.attributes, a.attributeTypeID ≠ TSK_SET_NAME) :
    processArtifact env fuel art = some ([], []) ∧
    ∀ l1 l2 : List TskBlackboardArtifact,
      processArtifacts env fuel (l1 ++ art :: l2) = processArtifacts env fuel (l1 ++ l2) := by
  have hpa : processArtifact env fuel art = some ([], []) := by
    simp [processArtifact, h1, processAttributes_no_setName env fuel file art.attributes h2]
  refine ⟨hpa, ?_⟩
  intro l1 l2
  induction l1 with
  | nil =>
    simp only [List.nil_append]
    simp only [processArtifacts, hpa]
    cases hl2 : processArtifacts env fuel l2 with
    | none => simp
    | some r => obtain ⟨a2, e2⟩ := r; simp
  | cons b l1' ih =>
    simp only [List.cons_append, processArtifacts, List.append_eq, ih]

/-- C5: a hit whose subject file id resolves to no record contributes no
action (no output path) but a lookup error; the batch's other hits are
still processed exactly as they would be on their own, and the batch
result is `FAIL`. -/
theorem lookup_failure_isolated (env : Env) (fuel : Nat) (a : TskBlackboardArtifact)
    (hlook : env.getFileRecord a.objectID = none)
    (l1 l2 : List TskBlackboardArtifact) (r1 r2 : List FsAction × List TskError)
    (h1 : processArtifacts env fuel l1 = some r1) (h2 : processArtifacts env fuel l2 = some r2) :
    processArtifacts env fuel (l1 ++ a :: l2) =
      some (r1.1 ++ r2.1, r1.2 ++ TskError.lookupFailed a.objectID :: r2.2) ∧
    (env.artifacts = l1 ++ a :: l2 →
      ∀ acts errs st, report env fuel = some (acts, errs, st) → st = Status.FAIL) := by
  have hart : processArtifact env fuel a = some ([], [TskError.lookupFailed a.objectID]) := by
    simp [processArtifact, hlook]
  have hmid : processArtifacts env fuel (a :: l2) =
      some (r2.1, TskError.lookupFailed a.objectID :: r2.2) := by
    obtain ⟨a2, e2⟩ := r2
    simp [processArtifacts, hart, h2]
  have hwhole := processArtifacts_append env fuel l1 (a :: l2) r1
    (r2.1, TskError.lookupFailed a.objectID :: r2.2) h1 hmid
  refine ⟨hwhole, ?_⟩
  intro hartifacts acts errs st hrep
  have hshape := report_status_shape env fuel acts errs st hrep
  unfold report createDirectory at hrep
  by_cases hmk : env.mkdirOk env.outputFolderPath
  · simp only [hmk, if_true] at hrep
    rw [hartifacts, hwhole] at hrep
    simp only [Option.some.injEq, Prod.mk.injEq] at hrep
    obtain ⟨-, he, -⟩ := hrep
    rw [hshape, ← he]
    simp
  · have hmk' : env.mkdirOk env.outputFolderPath = false := by
      cases hb : env.mkdirOk env.outputFolderPath
      · rfl
      · exact absurd hb hmk
    simp only [hmk', Bool.false_eq_true, if_false] at hrep
    simp only [Option.some.injEq, Prod.mk.injEq] at hrep
    obtain ⟨-, -, hs⟩ := hrep
    exact hs.symm

/-- C6: during the recursive subtree walk an error while handling one child
aborts the walk for all remaining children (the result is exactly that of
the failing child alone), and an error from a directory hit's walk becomes
that hit's single failure in the attribute loop, skipping the hit's
remaining attributes. -/
theorem walk_error_aborts_hit :
    (∀ (env : Env) (fuel : Nat) (dirPath : String) (c : TskFileRecord) (rest : List TskFileRecord)
       (acts : List FsAction) (e : TskError) (es : List TskError),
       saveChildren env fuel dirPath [c] = some (acts, e :: es) →
       saveChildren env fuel dirPath (c :: rest) = some (acts, e :: es)) ∧
    (∀ (env : Env) (fuel : Nat) (file : TskFileRecord) (attr : TskBlackboardAttribute)
       (rest : List TskBlackboardAttribute) (acts : List FsAction) (e : TskError) (es : List TskError),
       attr.attributeTypeID = TSK_SET_NAME →
       file.metaType = TskMetaType.TSK_FS_META_TYPE_DIR →
       saveInterestingDirectory env fuel file attr.valueString = some (acts, e :: es) →
       processAttributes env fuel file (attr :: rest) = some (acts, e :: es)) := by
  constructor
  · intro env fuel dirPath c rest acts e es h
    by_cases hm : c.metaType = TskMetaType.TSK_FS_META_TYPE_DIR
    · by_cases hmk : env.mkdirOk (dirPath ++ env.sep ++ c.name)
      · simp only [saveChildren, createDirectory, hm, if_true, hmk] at h ⊢
        cases hsdc : saveDirectoryContents env fuel (dirPath ++ env.sep ++ c.name) c.fileId with
        | none => rw [hsdc] at h; simp at h
        | some r =>
          obtain ⟨acts2, errs2⟩ := r
          rw [hsdc] at h
          cases errs2 with
          | nil => simp at h
          | cons e2 es2 => simpa using h
      · have hmk' : env.mkdirOk (dirPath ++ env.sep ++ c.name) = false := by
          cases hb : env.mkdirOk (dirPath ++ env.sep ++ c.name)
          · rfl
          · exact absurd hb hmk
        simp only [saveChildren, createDirectory, hm, if_true, hmk', Bool.false_eq_true,
          if_false] at h ⊢
        exact h
    · by_cases hcp : env.copyOk c.fileId (dirPath ++ env.sep ++ c.name)
      · simp only [saveChildren, copyFile, hm, if_false, hcp, if_true] at h
        simp [saveChildren] at h
      · have hcp' : env.copyOk c.fileId (dirPath ++ env.sep ++ c.name) = false := by
          cases hb : env.copyOk c.fileId (dirPath ++ env.sep ++ c.name)
          · rfl
          · exact absurd hb hcp
        simp only [saveChildren, copyFile, hm, if_false, hcp', Bool.false_eq_true] at h ⊢
        exact h
  · intro env fuel file attr rest acts e es hattr hmeta hsave
    simp [processAttributes, dispatchSave, hattr, hmeta, hsave]

/-- C7: the attribute loop performs the metaType-dispatched save exactly
once per `TSK_SET_NAME` attribute occurrence, in attribute order, with no
deduplication of repeated set-name attributes: when every dispatched save
succeeds, the hit's actions are the concatenation of one save's actions
per occurrence; for a plain-file hit with succeeding copies this is
explicitly one copy to that occurrence's spec path per occurrence. -/
theorem repeated_setName_saves_each (env : Env) (fuel : Nat) (file : TskFileRecord) :
    (∀ attrs : List TskBlackboardAttribute,
      (∀ a ∈ attrs, a.attributeTypeID = TSK_SET_NAME →
        ∃ acts, dispatchSave env fuel file a.valueString = some (acts, [])) →
      processAttributes env fuel file attrs =
        some (attrs.flatMap (fun a =>
          if a.attributeTypeID = TSK_SET_NAME then
            ((dispatchSave env fuel file a.valueString).getD ([], [])).1
          else []), [])) ∧
    (file.metaType ≠ TskMetaType.TSK_FS_META_TYPE_DIR →
      (∀ p : String, env.copyOk file.fileId p = true) →
      ∀ attrs : List TskBlackboardAttribute,
        processAttributes env fuel file attrs =
          some (attrs.filterMap (fun a =>
            if a.attributeTypeID = TSK_SET_NAME then
              some (FsAction.copy file.fileId
                (specFilePath env.outputFolderPath env.sep a.valueString file.fileId file.name))
            else none), [])) := by
  constructor
  · intro attrs
    induction attrs with
    | nil => intro _; rfl
    | cons a rest ih =>
      intro hsucc
      have hrest := ih (fun b hb => hsucc b (List.mem_cons_of_mem a hb))
      by_cases ha : a.attributeTypeID = TSK_SET_NAME
      · obtain ⟨acts, hs⟩ := hsucc a (List.mem_cons_self a rest) ha
        simp [processAttributes, ha, hs, hrest, List.flatMap_cons]
      · simp [processAttributes, ha, hrest, List.flatMap_cons]
  · intro hmeta hcopy attrs
    induction attrs with
    | nil => rfl
    | cons a rest ih =>
      by_cases ha : a.attributeTypeID = TSK_SET_NAME
      · simp [processAttributes, dispatchSave, ha, hmeta, saveInterestingFile, copyFile, hcopy,
          ih, List.filterMap_cons, specFilePath]
      · simp [processAttributes, ha, ih, List.filterMap_cons]

/-- When a measure strictly decreases from every directory to its
directory children, the child walk completes within any fuel bounding the
measure of every directory child of the list. -/
theorem saveChildren_isSome_of_measure (env : Env) (depth : Nat → Nat)
    (hdec : ∀ pid c, c ∈ env.getFileRecords pid →
      c.metaType = TskMetaType.TSK_FS_META_TYPE_DIR → depth c.fileId < depth pid) :
    ∀ fuel : Nat, ∀ l : List TskFileRecord, ∀ dirPath : String,
      (∀ c ∈ l, c.metaType = TskMetaType.TSK_FS_META_TYPE_DIR → depth c.fileId < fuel) →
      (saveChildren env fuel dirPath l).isSome := by
  intro fuel
  induction fuel using Nat.strong_induction_on with
  | _ fuel IH =>
    intro l
    induction l with
    | nil => intro dirPath _; simp [saveChildren]
    | cons c rest ihl =>
      intro dirPath hl
      by_cases hm : c.metaType = TskMetaType.TSK_FS_META_TYPE_DIR
      · cases hmk : env.mkdirOk (dirPath ++ env.sep ++ c.name) with
        | false => simp [saveChildren, createDirectory, hm, hmk]
        | true =>
          simp only [saveChildren, createDirectory, hm, if_true, hmk]
          have hd : depth c.fileId < fuel := hl c (List.mem_cons_self c rest) hm
          obtain ⟨f, rfl⟩ : ∃ f, fuel = f + 1 := ⟨fuel - 1, by omega⟩
          have hB : (saveChildren env f (dirPath ++ env.sep ++ c.name) (env.getFileRecords c.fileId)).isSome := by
            apply IH f (Nat.lt_succ_self f)
            intro c' hc' hm'
            have := hdec c.fileId c' hc' hm'
            omega
          obtain ⟨r, hr⟩ := Option.isSome_iff_exists.mp hB
          have hsdc : saveDirectoryContents env (f + 1) (dirPath ++ env.sep ++ c.name) c.fileId = some r := by
            simpa [saveDirectoryContents] using hr
          rw [hsdc]
          obtain ⟨acts2, errs2⟩ := r
          cases errs2 with
          | nil =>
            have hrest := ihl dirPath (fun c' hc' hm' => hl c' (List.mem_cons_of_mem c hc') hm')
            obtain ⟨r3, hr3⟩ := Option.isSome_iff_exists.mp hrest
            rw [hr3]
            obtain ⟨acts3, errs3⟩ := r3
            simp
          | cons e2 es2 => simp
      · cases hcp : env.copyOk c.fileId (dirPath ++ env.sep ++ c.name) with
        | false => simp [saveChildren, copyFile, hm, hcp]
        | true =>
          simp only [saveChildren, copyFile, hm, if_false, hcp, if_true]
          have hrest := ihl dirPath (fun c' hc' hm' => hl c' (List.mem_cons_of_mem c hc') hm')
          obtain ⟨r3, hr3⟩ := Option.isSome_iff_exists.mp hrest
          rw [hr3]
          obtain ⟨acts3, errs3⟩ := r3
          simp

/-- The child walk is fuel-monotone: a completed walk is unchanged by any
additional fuel. -/
theorem saveChildren_mono (env : Env) :
    ∀ fuel : Nat, ∀ l : List TskFileRecord, ∀ dirPath : String, ∀ r : List FsAction × List TskError,
      saveChildren env fuel dirPath l = some r → ∀ fuel' : Nat, fuel ≤ fuel' →
      saveChildren env fuel' dirPath l = some r := by
  intro fuel
  induction fuel using Nat.strong_induction_on with
  | _ fuel IH =>
    intro l
    induction l with
    | nil =>
      intro dirPath r h fuel' _
      simp only [saveChildren, Option.some.injEq] at h ⊢
      exact h
    | cons c rest ihl =>
      intro dirPath r h fuel' hle
      by_cases hm : c.metaType = TskMetaType.TSK_FS_META_TYPE_DIR
      · cases hmk : env.mkdirOk (dirPath ++ env.sep ++ c.name) with
        | false =>
          simp only [saveChildren, createDirectory, hm, if_true, hmk, Bool.false_eq_true,
            if_false] at h ⊢
          exact h
        | true =>
          simp only [saveChildren, createDirectory, hm, if_true, hmk] at h ⊢
          cases hsdc : saveDirectoryContents env fuel (dirPath ++ env.sep ++ c.name) c.fileId with
          | none => rw [hsdc] at h; simp at h
          | some r2 =>
            rw [hsdc] at h
            have hsdc' : saveDirectoryContents env fuel' (dirPath ++ env.sep ++ c.name) c.fileId = some r2 := by
              cases fuel with
              | zero => simp [saveDirectoryContents] at hsdc
              | succ f =>
                obtain ⟨f', rfl⟩ : ∃ f', fuel' = f' + 1 := ⟨fuel' - 1, by omega⟩
                simp only [saveDirectoryContents] at hsdc ⊢
                exact IH f (by omega) _ _ _ hsdc f' (by omega)
            rw [hsdc']
            obtain ⟨acts2, errs2⟩ := r2
            cases errs2 with
            | nil =>
              cases hrest : saveChildren env fuel dirPath rest with
              | none => rw [hrest] at h; simp at h
              | some r3 =>
                rw [hrest] at h
                rw [ihl dirPath r3 hrest fuel' hle]
                exact h
            | cons e2 es2 => exact h
      · cases hcp : env.copyOk c.fileId (dirPath ++ env.sep ++ c.name) with
        | false =>
          simp only [saveChildren, copyFile, hm, if_false, hcp, Bool.false_eq_true] at h ⊢
          exact h
        | true =>
          simp only [saveChildren, copyFile, hm, if_false, hcp, if_true] at h ⊢
          cases hrest : saveChildren env fuel dirPath rest with
          | none => rw [hrest] at h; simp at h
          | some r3 =>
            rw [hrest] at h
            rw [ihl dirPath r3 hrest fuel' hle]
            exact h

/-- Fuel-monotonicity of `saveDirectoryContents`. -/
theorem saveDirectoryContents_mono (env : Env) (fuel : Nat) (dirPath : String) (pid : Nat)
    (r : List FsAction × List TskError)
    (h : saveDirectoryContents env fuel dirPath pid = some r)
    (fuel' : Nat) (hle : fuel ≤ fuel') :
    saveDirectoryContents env fuel' dirPath pid = some r := by
  cases fuel with
  | zero => simp [saveDirectoryContents] at h
  | succ f =>
    obtain ⟨f', rfl⟩ : ∃ f', fuel' = f' + 1 := ⟨fuel' - 1, by omega⟩
    simp only [saveDirectoryContents] at h ⊢
    exact saveChildren_mono env f _ _ _ h f' (by omega)

/-- C8: when the parent/child id graph admits a measure that strictly
decreases from each directory to its directory children (acyclicity), the
recursive walk terminates: any fuel exceeding the root's measure completes
it, and extra fuel beyond that bound is never consumed — the recursion
depth is bounded by the measure of the subtree's root. -/
theorem acyclic_walk_terminates (env : Env) (depth : Nat → Nat)
    (hdec : ∀ pid c, c ∈ env.getFileRecords pid →
      c.metaType = TskMetaType.TSK_FS_META_TYPE_DIR → depth c.fileId < depth pid)
    (fuel : Nat) (dirPath : String) (pid : Nat) (hfuel : depth pid < fuel) :
    (saveDirectoryContents env fuel dirPath pid).isSome ∧
    ∀ fuel' : Nat, fuel ≤ fuel' →
      saveDirectoryContents env fuel' dirPath pid = saveDirectoryContents env fuel dirPath pid := by
  have hsome : (saveDirectoryContents env fuel dirPath pid).isSome := by
    obtain ⟨f, rfl⟩ : ∃ f, fuel = f + 1 := ⟨fuel - 1, by omega⟩
    simp only [saveDirectoryContents]
    apply saveChildren_isSome_of_measure env depth hdec f
    intro c hc hm
    have := hdec pid c hc hm
    omega
  refine ⟨hsome, ?_⟩
  intro fuel' hle
  obtain ⟨r, hr⟩ := Option.isSome_iff_exists.mp hsome
  rw [hr, saveDirectoryContents_mono env fuel dirPath pid r hr fuel' hle]

/-- C3: the recursive core queries the store for the child records of the
given parent id and handles each child, in store order, at destination
`<destPath>/<child.name>` (no file-id prefix): a DIRECTORY child has that
path created and is recursed into with `(thatPath, child.fileId)`, any
other child has its content copied to that path, under the abort-on-error
sequencing. -/
theorem copyDirectoryContents_spec :
    (∀ (env : Env) (fuel : Nat) (destPath : String) (pid : Nat),
      saveDirectoryContents env (fuel + 1) destPath pid =
        saveChildren env fuel destPath (env.getFileRecords pid)) ∧
    (∀ (env : Env) (fuel : Nat) (destPath : String) (child : TskFileRecord) (rest : List TskFileRecord),
      child.metaType = TskMetaType.TSK_FS_META_TYPE_DIR →
      saveChildren env fuel destPath (child :: rest) =
        seqStep (createDirectory env (specChildPath destPath env.sep child.name))
          (fun _ => seqWalk (saveDirectoryContents env fuel (specChildPath destPath env.sep child.name) child.fileId)
            (fun _ => saveChildren env fuel destPath rest))) ∧
    (∀ (env : Env) (fuel : Nat) (destPath : String) (child : TskFileRecord) (rest : List TskFileRecord),
      child.metaType ≠ TskMetaType.TSK_FS_META_TYPE_DIR →
      saveChildren env fuel destPath (child :: rest) =
        seqStep (copyFile env child.fileId (specChildPath destPath env.sep child.name))
          (fun _ => saveChildren env fuel destPath rest)) := by
  refine ⟨?_, ?_, ?_⟩
  · intro env fuel destPath pid
    simp only [saveDirectoryContents]
  · intro env fuel destPath child rest hm
    cases hmk : env.mkdirOk (destPath ++ env.sep ++ child.name) with
    | false => simp [saveChildren, createDirectory, specChildPath, hm, hmk, seqStep]
    | true =>
      simp only [saveChildren, createDirectory, specChildPath, hm, if_true, hmk, seqStep, seqWalk]
      cases hsdc : saveDirectoryContents env fuel (destPath ++ env.sep ++ child.name) child.fileId with
      | none => simp
      | some r2 =>
        obtain ⟨acts2, errs2⟩ := r2
        cases errs2 with
        | nil =>
          cases hrest : saveChildren env fuel destPath rest with
          | none => simp
          | some r3 =>
            obtain ⟨acts3, errs3⟩ := r3
            simp [List.append_assoc]
        | cons e2 es2 => simp
  · intro env fuel destPath child rest hm
    cases hcp : env.copyOk child.fileId (destPath ++ env.sep ++ child.name) with
    | false => simp [saveChildren, copyFile, specChildPath, hm, hcp, seqStep]
    | true =>
      simp only [saveChildren, copyFile, specChildPath, hm, if_false, hcp, if_true, seqStep]

/-!
Witnesses: each claim theorem with a hypothesis applied at concrete
inputs, all hypotheses discharged there.
-/

/-- C1 witness: the healthy world's batch completes with no error and
status `OK`. -/
theorem report_ok_iff_no_error_witness :
    (Status.OK = Status.OK ↔ ([] : List TskError) = []) ∧
    (Status.OK = Status.FAIL ↔ ([] : List TskError) ≠ []) ∧
    Status.OK ≠ Status.STOP :=
  report_ok_iff_no_error envW 5
    [FsAction.mkdir "out", FsAction.mkdir "out/setA/1_top/top",
     FsAction.mkdir "out/setA/1_top/top/sub",
     FsAction.copy 4 "out/setA/1_top/top/sub/b.txt",
     FsAction.copy 3 "out/setA/1_top/top/a.txt",
     FsAction.copy 5 "out/setA/5_c.txt"]
    [] Status.OK
    (by simp [report, processArtifacts, processArtifact, processAttributes, dispatchSave,
      saveInterestingDirectory, saveDirectoryContents, saveChildren, saveInterestingFile,
      createDirectory, copyFile, envW, childrenW, lookupW, recTop, recSub, recF1, recF2, recF5,
      artTop, artF5, attrSetA, TSK_SET_NAME, toString_one, toString_five])

/-- C2 witness: the directory hit on `recTop` in the healthy world. -/
theorem saveInterestingDirectory_nested_root_and_recursion_witness :
    saveInterestingDirectory envW 5 recTop "setA" =
      (saveDirectoryContents envW 5
          (specSubtreeRoot envW.outputFolderPath envW.sep "setA" recTop.fileId recTop.name)
          recTop.fileId).map
        (fun r =>
          (FsAction.mkdir
              (specSubtreeRoot envW.outputFolderPath envW.sep "setA" recTop.fileId recTop.name) :: r.1,
           r.2)) :=
  saveInterestingDirectory_nested_root_and_recursion envW 5 recTop "setA" rfl

/-- C3 witness: the recursive core's characterization instantiated on the
test image's root directory, a directory child, and a file child. -/
theorem copyDirectoryContents_spec_witness :
    (saveDirectoryContents envW (3 + 1) "d" 1 = saveChildren envW 3 "d" (envW.getFileRecords 1)) ∧
    (saveChildren envW 3 "d" (recSub :: [recF1]) =
      seqStep (createDirectory envW (specChildPath "d" envW.sep recSub.name))
        (fun _ => seqWalk (saveDirectoryContents envW 3 (specChildPath "d" envW.sep recSub.name) recSub.fileId)
          (fun _ => saveChildren envW 3 "d" [recF1]))) ∧
    (saveChildren envW 3 "d" (recF1 :: []) =
      seqStep (copyFile envW recF1.fileId (specChildPath "d" envW.sep recF1.name))
        (fun _ => saveChildren envW 3 "d" [])) :=
  ⟨copyDirectoryContents_spec.1 envW 3 "d" 1,
   copyDirectoryContents_spec.2.1 envW 3 "d" recSub [recF1] rfl,
   copyDirectoryContents_spec.2.2 envW 3 "d" recF1 [] (by decide)⟩

/-- C5 witness: a batch with an unresolvable middle hit still materializes
both good hits, records the lookup error, and `report` fails. -/
theorem lookup_failure_isolated_witness :
    processArtifacts envGhost 5 [artF5, artGhost, artTop] =
      some ([FsAction.copy 5 "out/setA/5_c.txt", FsAction.mkdir "out/setA/1_top/top",
             FsAction.mkdir "out/setA/1_top/top/sub",
             FsAction.copy 4 "out/setA/1_top/top/sub/b.txt",
             FsAction.copy 3 "out/setA/1_top/top/a.txt"],
            [TskError.lookupFailed 99]) ∧
    Status.FAIL = Status.FAIL := by
  have h := lookup_failure_isolated envGhost 5 artGhost rfl [artF5] [artTop]
    ([FsAction.copy 5 "out/setA/5_c.txt"], [])
    ([FsAction.mkdir "out/setA/1_top/top", FsAction.mkdir "out/setA/1_top/top/sub",
      FsAction.copy 4 "out/setA/1_top/top/sub/b.txt",
      FsAction.copy 3 "out/setA/1_top/top/a.txt"], [])
    (by simp [processArtifacts, processArtifact, processAttributes, dispatchSave,
      saveInterestingFile, copyFile, envGhost, lookupW, recF5, artF5, attrSetA, TSK_SET_NAME,
      toString_five])
    (by simp [processArtifacts, processArtifact, processAttributes, dispatchSave,
      saveInterestingDirectory, saveDirectoryContents, saveChildren, createDirectory, copyFile,
      envGhost, childrenW, lookupW, recTop, recSub, recF1, recF2, artTop, attrSetA, TSK_SET_NAME,
      toString_one])
  refine ⟨h.1, ?_⟩
  exact h.2 rfl
    [FsAction.mkdir "out", FsAction.copy 5 "out/setA/5_c.txt",
     FsAction.mkdir "out/setA/1_top/top", FsAction.mkdir "out/setA/1_top/top/sub",
     FsAction.copy 4 "out/setA/1_top/top/sub/b.txt",
     FsAction.copy 3 "out/setA/1_top/top/a.txt"]
    [TskError.lookupFailed 99] Status.FAIL
    (by simp [report, processArtifacts, processArtifact, processAttributes, dispatchSave,
      saveInterestingDirectory, saveDirectoryContents, saveChildren, saveInterestingFile,
      createDirectory, copyFile, envGhost, childrenW, lookupW, recTop, recSub, recF1, recF2,
      recF5, artTop, artF5, artGhost, attrSetA, TSK_SET_NAME, toString_one, toString_five])

/-- C6 witness: a failing copy aborts the remaining children of the walk,
and the directory hit's walk failure aborts its remaining attributes. -/
theorem walk_error_aborts_hit_witness :
    saveChildren envBadCopy4 3 "d" (recF2 :: [recF1]) =
      some ([], [TskError.copyFailed 4 "d/b.txt"]) ∧
    processAttributes envBadCopy4 5 recTop (attrSetA :: [attrSetA]) =
      some ([FsAction.mkdir "out/setA/1_top/top", FsAction.mkdir "out/setA/1_top/top/sub"],
            [TskError.copyFailed 4 "out/setA/1_top/top/sub/b.txt"]) :=
  ⟨walk_error_aborts_hit.1 envBadCopy4 3 "d" recF2 [recF1] []
     (TskError.copyFailed 4 "d/b.txt") []
     (by simp [saveChildren, copyFile, envBadCopy4, recF2]),
   walk_error_aborts_hit.2 envBadCopy4 5 recTop attrSetA [attrSetA]
     [FsAction.mkdir "out/setA/1_top/top", FsAction.mkdir "out/setA/1_top/top/sub"]
     (TskError.copyFailed 4 "out/setA/1_top/top/sub/b.txt") [] rfl rfl
     (by simp [saveInterestingDirectory, saveDirectoryContents, saveChildren, createDirectory,
       copyFile, envBadCopy4, childrenW, recTop, recSub, recF1, recF2, attrSetA, toString_one])⟩

/-- C7 witness: a directory hit and a file hit, each with two identical
set-name attributes, are saved twice — once per attribute occurrence. -/
theorem repeated_setName_saves_each_witness :
    processAttributes envW 5 recTop [attrSetA, attrSetA] =
      some ([attrSetA, attrSetA].flatMap (fun a =>
        if a.attributeTypeID = TSK_SET_NAME then
          ((dispatchSave envW 5 recTop a.valueString).getD ([], [])).1
        else []), []) ∧
    processAttributes envW 5 recF5 [attrSetA, attrSetA] =
      some ([attrSetA, attrSetA].filterMap (fun a =>
        if a.attributeTypeID = TSK_SET_NAME then
          some (FsAction.copy recF5.fileId
            (specFilePath envW.outputFolderPath envW.sep a.valueString recF5.fileId recF5.name))
        else none), []) :=
  ⟨(repeated_setName_saves_each envW 5 recTop).1 [attrSetA, attrSetA]
    (by
      intro a ha _
      have haeq : a = attrSetA := by simpa using ha
      subst haeq
      exact ⟨[FsAction.mkdir "out/setA/1_top/top", FsAction.mkdir "out/setA/1_top/top/sub",
              FsAction.copy 4 "out/setA/1_top/top/sub/b.txt",
              FsAction.copy 3 "out/setA/1_top/top/a.txt"],
             by simp [dispatchSave, saveInterestingDirectory, saveDirectoryContents, saveChildren,
               createDirectory, copyFile, envW, childrenW, recTop, recSub, recF1, recF2, attrSetA,
               toString_one]⟩),
   (repeated_setName_saves_each envW 5 recF5).2 (by decide) (fun _ => rfl) [attrSetA, attrSetA]⟩

/-- C8 witness: the test image's graph has a decreasing measure, so the
walk from the root completes with fuel `3` and gains nothing from more. -/
theorem acyclic_walk_terminates_witness :
    (saveDirectoryContents envW 3 "d" 1).isSome ∧
    saveDirectoryContents envW 4 "d" 1 = saveDirectoryContents envW 3 "d" 1 := by
  have hdec : ∀ pid c, c ∈ envW.getFileRecords pid →
      c.metaType = TskMetaType.TSK_FS_META_TYPE_DIR → depthW c.fileId < depthW pid := by
    intro pid c hc hm
    by_cases h1 : pid = 1
    · subst h1
      simp [envW, childrenW] at hc
      rcases hc with rfl | rfl
      · simp [depthW, recSub]
      · exact absurd hm (by decide)
    · by_cases h2 : pid = 2
      · subst h2
        simp [envW, childrenW] at hc
        subst hc
        exact absurd hm (by decide)
      · simp [envW, childrenW, h1, h2] at hc
  have h := acyclic_walk_terminates envW depthW hdec 3 "d" 1 (by decide)
  exact ⟨h.1, h.2 4 (by omega)⟩

/-- C9 witness: NULL argument still yields `OK`; the world whose output
root cannot be created fails at `report` with the deferred error. -/
theorem moduleInit_always_ok_failure_deferred_witness :
    (moduleInit none).2 = Status.OK ∧
    report envNoRoot 1 = some ([], [TskError.createDirFailed envNoRoot.outputFolderPath], Status.FAIL) :=
  ⟨moduleInit_always_ok_failure_deferred.1 none,
   moduleInit_always_ok_failure_deferred.2 envNoRoot 1 rfl⟩

/-- C10 witness: the resolvable hit without a set-name attribute is a
no-op and its insertion does not change the batch outcome. -/
theorem hit_without_setName_skipped_witness :
    processArtifact envW 5 artNoSet = some ([], []) ∧
    processArtifacts envW 5 ([artTop] ++ artNoSet :: []) = processArtifacts envW 5 ([artTop] ++ []) := by
  have h := hit_without_setName_skipped envW 5 artNoSet recF5 rfl
    (by intro a ha; simp [artNoSet] at ha; subst ha; decide)
  exact ⟨h.1, h.2 [artTop] []⟩
